import Mathlib

/-!
# The eSpeak JNI bridge (`android/jni/jni/eSpeakService.cpp`)

A shallow embedding of the native bridge between the Java class
`com.reecedunn.espeak.SpeechSynthesis` and the eSpeak engine.

Conventions of the embedding.

* The process state the bridge can observe or change is a `World`: the C++ heap of
  `native_data_t` records, the `mNativeData` field of every managed object, the live weak
  global references, the Java byte arrays created so far, whether a synthesis callback is
  installed in the engine, and the chronological list of the calls made to the engine, to
  the JNI environment and to the error log.
* An entry point returns `Option`: `none` stands for undefined behaviour of the C++ code
  (dereferencing a null or dangling pointer, `strlen` of a null pointer, signed overflow,
  reading past the end of a buffer).
* The value returned by an engine call is an argument of the entry point that makes the call.
* A `native_data_t *` is identified with the `jint` it is cast to when stored in
  `mNativeData` (the field has JNI signature `I`; pointer and `jint` have the same width on
  the 32-bit ABI the file is written for).
* The debug traces (`if (DEBUG) LOGV(...)`) are not modelled; the error log `LOGE` is.
-/

namespace eSpeakService

/-! ## Constants of the source file -/

/-- Enumerator `CHANNEL_COUNT_MONO` of `enum audio_channel_count`. -/
def CHANNEL_COUNT_MONO : Int := 1

/-- Enumerator `CHANNEL_COUNT_STEREO` of `enum audio_channel_count`. -/
def CHANNEL_COUNT_STEREO : Int := 2

/-- Enumerator `ENCODING_INVALID` of `enum audio_encoding`. -/
def ENCODING_INVALID : Int := 0

/-- Enumerator `ENCODING_DEFAULT` of `enum audio_encoding`. -/
def ENCODING_DEFAULT : Int := 1

/-- Enumerator `ENCODING_PCM_16BIT` of `enum audio_encoding`. -/
def ENCODING_PCM_16BIT : Int := 2

/-- Enumerator `ENCODING_PCM_8BIT` of `enum audio_encoding`. -/
def ENCODING_PCM_8BIT : Int := 3

/-- Enumerator `SYNTH_CONTINUE` of `enum synthesis_result`. -/
def SYNTH_CONTINUE : Int := 0

/-- Enumerator `SYNTH_ABORT` of `enum synthesis_result`. -/
def SYNTH_ABORT : Int := 1

/-- Constant `DEFAULT_CHANNEL_COUNT`. -/
def DEFAULT_CHANNEL_COUNT : Int := CHANNEL_COUNT_MONO

/-- Constant `DEFAULT_AUDIO_FORMAT`. -/
def DEFAULT_AUDIO_FORMAT : Int := ENCODING_PCM_16BIT

/-- Constant `DEFAULT_BUFFER_SIZE`. -/
def DEFAULT_BUFFER_SIZE : Int := 1000

/-- Largest value of the C type `int` (32 bits), which is also the largest `jsize`. -/
def INT_MAX : Int := 2147483647

/-! ## The engine header -/

/-- The constants of the engine header `speak_lib.h` used by the bridge. The header is not
among the sources, so the values are parameters. The four result codes are the case labels
of the `switch` statements of the bridge, which C++ requires to be pairwise distinct. -/
structure speak_lib where
  EE_OK : Int
  EE_INTERNAL_ERROR : Int
  EE_BUFFER_FULL : Int
  EE_NOT_FOUND : Int
  espeakCHARS_UTF8 : Nat
  espeakSSML : Nat
  POS_CHARACTER : Int
  AUDIO_OUTPUT_SYNCHRONOUS : Int
  distinct : [EE_OK, EE_INTERNAL_ERROR, EE_BUFFER_FULL, EE_NOT_FOUND].Nodup

/-- The fields of the engine's `espeak_VOICE` record that the bridge reads. `languages` and
`identifier` are the C strings the two pointers refer to (the characters before the
terminating NUL), `gender` and `age` are `unsigned char` values. -/
structure espeak_VOICE where
  languages : String
  identifier : String
  gender : Nat
  age : Nat
deriving DecidableEq, Repr

/-! ## The native handle and the world -/

/-- The record `native_data_t`; `env` and `object` are pointers, `none` is `NULL`. -/
structure native_data_t where
  env : Option Nat
  object : Option Nat
  sampleRate : Int
  channelCount : Int
  audioFormat : Int
  bufferSizeInMillis : Int
deriving DecidableEq, Repr

/-- The constructor `native_data_t()`. -/
def native_data_t.ctor : native_data_t :=
  { env := none
    object := none
    sampleRate := 0
    channelCount := DEFAULT_CHANNEL_COUNT
    audioFormat := DEFAULT_AUDIO_FORMAT
    bufferSizeInMillis := DEFAULT_BUFFER_SIZE }

/-- The calls the bridge makes to its collaborators, and its one write to shared state that
the engine's callback depends on (`store_env`, the assignment `nat->env = env`). -/
inductive Effect where
  | espeak_Initialize (output : Int) (buflength : Int) (path : Option String) (options : Int)
  | espeak_ListVoices
  | espeak_SetVoiceByName (name : Option String)
  | espeak_SetVoiceByProperties (languages : Option String) (gender : Int) (age : Int)
  | espeak_SetParameter (parameter : Int) (value : Int) (relative : Int)
  | espeak_SetSynthCallback
  | espeak_Synth (text : Option String) (size : Nat) (position : Nat) (position_type : Int)
      (end_position : Nat) (flags : Nat) (user_data : Int)
  | espeak_Synchronize
  | store_env (nat : Int) (env : Nat)
  | SetIntField (object : Nat) (value : Int)
  | GetStringUTFChars (s : String)
  | ReleaseStringUTFChars (s : String)
  | NewWeakGlobalRef (object : Nat)
  | DeleteWeakGlobalRef (object : Option Nat)
  | NewByteArray (length : Int)
  | SetByteArrayRegion (array : Nat) (start : Int) (len : Int) (buf : List Int)
  | CallVoidMethod (env : Nat) (object : Nat) (arg : Option Nat)
  | LOGE (msg : String)
deriving DecidableEq, Repr

/-- The process state seen by the bridge. -/
structure World where
  heap : Int → Option native_data_t
  brk : Nat
  mNativeData : Nat → Int
  weakGlobalRefs : List Nat
  byteArrays : List (List Int)
  synthCallback : Bool
  trace : List Effect

/-- Record a call at the end of the trace. -/
def World.emit (w : World) (e : Effect) : World :=
  { w with trace := w.trace ++ [e] }

/-- Write a record at an address of the heap. -/
def World.write (w : World) (p : Int) (nd : native_data_t) : World :=
  { w with heap := fun a => if a = p then some nd else w.heap a }

/-- The expression `new native_data_t`: a fresh, non-null address holding a constructed record. -/
def operator_new (w : World) : Int × World :=
  let p : Int := (w.brk : Int) + 1
  (p, { (w.write p native_data_t.ctor) with brk := w.brk + 1 })

/-- The statement `delete nat`. -/
def operator_delete (w : World) (p : Int) : World :=
  { w with heap := fun a => if a = p then none else w.heap a }

/-- The function `getNativeData`: the `mNativeData` field of the object, cast to a pointer. -/
def getNativeData (w : World) (object : Nat) : Int :=
  w.mNativeData object

/-- The JNI call `SetIntField(object, FIELD_mNativeData, value)`. -/
def SetIntField (w : World) (object : Nat) (value : Int) : World :=
  { w with mNativeData := fun o => if o = object then value else w.mNativeData o }.emit
    (.SetIntField object value)

/-- The expression `s ? env->GetStringUTFChars(s, NULL) : NULL`. -/
def GetStringUTFChars (w : World) (s : Option String) : Option String × World :=
  match s with
  | some t => (some t, w.emit (.GetStringUTFChars t))
  | none => (none, w)

/-- The statement `if (c) env->ReleaseStringUTFChars(s, c)`. -/
def ReleaseStringUTFChars (w : World) (c : Option String) : World :=
  match c with
  | some t => w.emit (.ReleaseStringUTFChars t)
  | none => w

/-- The C function `strlen`, undefined on a null pointer. -/
def strlen : Option String → Option Nat
  | none => none
  | some s => some s.utf8ByteSize

/-- Multiplication of two `int` values; signed overflow is undefined. -/
def int_mul (a b : Int) : Option Int :=
  if -INT_MAX - 1 ≤ a * b ∧ a * b ≤ INT_MAX then some (a * b) else none

/-- The JNI call `NewByteArray(length)`: a reference to a new, zero-filled array. -/
def NewByteArray (w : World) (length : Int) : Nat × World :=
  (w.byteArrays.length,
    { w with byteArrays := w.byteArrays ++ [List.replicate length.toNat 0] }.emit
      (.NewByteArray length))

/-- The JNI call `SetByteArrayRegion(array, start, len, buf)`: copies the first `len` bytes
found at `buf` into the array from index `start`. It is undefined when the native buffer
holds fewer than `len` bytes, and fails when the region does not fit the array. -/
def SetByteArrayRegion (w : World) (array : Nat) (start len : Int) (buf : List Int) :
    Option World := do
  let old ← w.byteArrays[array]?
  if start < 0 ∨ len < 0 ∨ (old.length : Int) < start + len then none
  else if (buf.length : Int) < len then none
  else
    let bytes := buf.take len.toNat
    some ({ w with
        byteArrays := w.byteArrays.set array
          (old.take start.toNat ++ bytes ++ old.drop (start.toNat + len.toNat)) }.emit
      (.SetByteArrayRegion array start len bytes))

/-- The bytes found at a `short *` when it is read through a `jbyte *`: every sample
contributes its two bytes, in the byte order of the platform (`short_bytes`). -/
def as_jbytes (short_bytes : Int → Int × Int) (audioData : List Int) : List Int :=
  audioData.flatMap (fun s => [(short_bytes s).1, (short_bytes s).2])

/-! ## The callback trampoline -/

/-- The function `SynthCallback`. `audioData` lists the samples stored at the pointer,
`user_data` is the field `events->user_data`. -/
def SynthCallback (short_bytes : Int → Int × Int) (w : World) (audioData : List Int)
    (numSamples : Int) (user_data : Int) : Option (Int × World) := do
  let nat ← w.heap user_data
  let env ← nat.env
  let object ← nat.object
  if numSamples < 1 then
    pure (SYNTH_ABORT, w.emit (.CallVoidMethod env object none))
  else
    let size ← int_mul numSamples 2
    let (arrayAudioData, w1) := NewByteArray w size
    let w2 ← SetByteArrayRegion w1 arrayAudioData 0 size (as_jbytes short_bytes audioData)
    pure (SYNTH_CONTINUE, w2.emit (.CallVoidMethod env object (some arrayAudioData)))

/-- Modelled from the spec: the engine itself is not among the sources. During `espeak_Synth`
in synchronous mode the engine calls the installed callback once per generated chunk, in
generation order, passing the `user_data` it was given, and makes no further call once the
callback has asked it to abort. `chunks` lists the sample buffer and sample count of the
chunks the engine generates. -/
def espeak_Synth_callbacks (short_bytes : Int → Int × Int) :
    World → Int → List (List Int × Int) → Option World
  | w, _, [] => some w
  | w, user_data, (audioData, numSamples) :: rest =>
    if w.synthCallback then
      match SynthCallback short_bytes w audioData numSamples user_data with
      | none => none
      | some (r, w1) =>
        if r = SYNTH_CONTINUE then espeak_Synth_callbacks short_bytes w1 user_data rest
        else some w1
    else some w

/-! ## Entry points -/

/-- The entry point `nativeCreate`; `r` is the value returned by `espeak_Initialize`. -/
def Java_com_reecedunn_espeak_SpeechSynthesis_nativeCreate (h : speak_lib) (w : World)
    (object : Nat) (path : Option String) (r : Int) : Option (Bool × World) := do
  let (nat, w1) := operator_new w
  if nat = 0 then
    pure (false,
      w1.emit (.LOGE "Java_com_reecedunn_espeak_SpeechSynthesis_nativeCreate: out of memory!"))
  else
    let w2 := SetIntField w1 object nat
    let (c_path, w3) := GetStringUTFChars w2 path
    let nd ← w3.heap nat
    let w4 := ({ w3 with weakGlobalRefs := object :: w3.weakGlobalRefs }.emit
      (.NewWeakGlobalRef object)).write nat { nd with object := some object }
    let nd1 ← w4.heap nat
    let w5 := (w4.emit (.espeak_Initialize h.AUDIO_OUTPUT_SYNCHRONOUS nd1.bufferSizeInMillis
      c_path 0)).write nat { nd1 with sampleRate := r }
    let w6 := ReleaseStringUTFChars w5 c_path
    let nd2 ← w6.heap nat
    pure (decide (nd2.sampleRate > 0), w6)

/-- The entry point `nativeDestroy`. -/
def Java_com_reecedunn_espeak_SpeechSynthesis_nativeDestroy (w : World) (object : Nat) :
    Option (Bool × World) := do
  let nat := getNativeData w object
  let nd ← w.heap nat
  let w1 := { w with
      weakGlobalRefs := match nd.object with
        | some o => w.weakGlobalRefs.erase o
        | none => w.weakGlobalRefs }.emit (.DeleteWeakGlobalRef nd.object)
  let w2 := operator_delete w1 nat
  pure (true, w2)

/-- The entry point `nativeGetSampleRate`. -/
def Java_com_reecedunn_espeak_SpeechSynthesis_nativeGetSampleRate (w : World) (object : Nat) :
    Option (Int × World) := do
  let nat ← w.heap (getNativeData w object)
  pure (nat.sampleRate, w)

/-- The entry point `nativeGetChannelCount`. -/
def Java_com_reecedunn_espeak_SpeechSynthesis_nativeGetChannelCount (w : World) (object : Nat) :
    Option (Int × World) := do
  let nat ← w.heap (getNativeData w object)
  pure (nat.channelCount, w)

/-- The entry point `nativeGetAudioFormat`. -/
def Java_com_reecedunn_espeak_SpeechSynthesis_nativeGetAudioFormat (w : World) (object : Nat) :
    Option (Int × World) := do
  let nat ← w.heap (getNativeData w object)
  pure (nat.audioFormat, w)

/-- The entry point `nativeGetBufferSizeInMillis`. -/
def Java_com_reecedunn_espeak_SpeechSynthesis_nativeGetBufferSizeInMillis (w : World)
    (object : Nat) : Option (Int × World) := do
  let nat ← w.heap (getNativeData w object)
  pure (nat.bufferSizeInMillis, w)

/-- The pointer `s + 1` into a C string: the string without its first byte (the priority byte
of a `languages` string is a single character). Reading it is undefined when `s` is empty, as
the pointer is then past the terminating NUL. -/
def plus_one (s : String) : Option String :=
  if s = "" then none else some (s.drop 1)

/-- The call `sprintf(buf, "%d", n)` for an `unsigned char` value: its decimal digits. -/
def sprintf_d (n : Nat) : String :=
  Nat.repr n

/-- The counting loop `for (count = 0; voices[count] != NULL; count++);`. The list holds the
entries of the engine's array from index `count` on (`none` is a null entry); running off the
end of the array is undefined. -/
def count_loop : List (Option espeak_VOICE) → Nat → Option Nat
  | [], _ => none
  | none :: _, count => some count
  | some _ :: rest, count => count_loop rest (count + 1)

/-- The populating loop `for (int i = 0, voicesIndex = 0; (v = voices[i]) != NULL; i++)`.
The list holds the entries of the engine's array from index `i` on. -/
def populate_loop :
    List (Option espeak_VOICE) → Nat → List (Option String) → Option (List (Option String))
  | [], _, _ => none
  | none :: _, _, voicesArray => some voicesArray
  | some v :: rest, voicesIndex, voicesArray => do
    let lang_name ← plus_one v.languages
    let identifier := v.identifier
    let gender_buf := sprintf_d v.gender
    let age_buf := sprintf_d v.age
    let a1 := voicesArray.set voicesIndex (some lang_name)
    let a2 := a1.set (voicesIndex + 1) (some identifier)
    let a3 := a2.set (voicesIndex + 2) (some gender_buf)
    let a4 := a3.set (voicesIndex + 3) (some age_buf)
    populate_loop rest (voicesIndex + 4) a4

/-- The entry point `nativeGetAvailableVoices`; `voices` is the array returned by
`espeak_ListVoices`. The result is the contents of the Java array (`none` is a null
element). -/
def Java_com_reecedunn_espeak_SpeechSynthesis_nativeGetAvailableVoices (w : World)
    (voices : List (Option espeak_VOICE)) : Option (List (Option String) × World) := do
  let w1 := w.emit .espeak_ListVoices
  let count ← count_loop voices 0
  let size ← int_mul count 4
  let voicesArray : List (Option String) := List.replicate size.toNat none
  let filled ← populate_loop voices 0 voicesArray
  pure (filled, w1)

/-- The entry point `nativeSetVoiceByName`; `result` is returned by `espeak_SetVoiceByName`. -/
def Java_com_reecedunn_espeak_SpeechSynthesis_nativeSetVoiceByName (h : speak_lib) (w : World)
    (name : Option String) (result : Int) : Bool × World :=
  let (c_name, w1) := GetStringUTFChars w name
  let w2 := w1.emit (.espeak_SetVoiceByName c_name)
  let w3 := ReleaseStringUTFChars w2 c_name
  if result = h.EE_OK then (true, w3)
  else if result = h.EE_INTERNAL_ERROR then
    (false, w3.emit (.LOGE "espeak_SetVoiceByName: internal error."))
  else if result = h.EE_BUFFER_FULL then
    (false, w3.emit (.LOGE "espeak_SetVoiceByName: buffer full."))
  else if result = h.EE_NOT_FOUND then
    (false, w3.emit (.LOGE "espeak_SetVoiceByName: not found."))
  else (false, w3)

/-- The entry point `nativeSetVoiceByProperties`; `result` is returned by
`espeak_SetVoiceByProperties`. The `gender` and `age` fields of the criteria record are
`unsigned char`, so the values stored are reduced modulo 256. -/
def Java_com_reecedunn_espeak_SpeechSynthesis_nativeSetVoiceByProperties (h : speak_lib)
    (w : World) (language : Option String) (gender age : Int) (result : Int) : Bool × World :=
  let (c_language, w1) := GetStringUTFChars w language
  let w2 := w1.emit (.espeak_SetVoiceByProperties c_language (gender % 256) (age % 256))
  let w3 := ReleaseStringUTFChars w2 c_language
  if result = h.EE_OK then (true, w3)
  else if result = h.EE_INTERNAL_ERROR then
    (false, w3.emit (.LOGE "espeak_SetVoiceByProperties: internal error."))
  else if result = h.EE_BUFFER_FULL then
    (false, w3.emit (.LOGE "espeak_SetVoiceByProperties: buffer full."))
  else if result = h.EE_NOT_FOUND then
    (false, w3.emit (.LOGE "espeak_SetVoiceByProperties: not found."))
  else (false, w3)

/-- The entry point `nativeSetParameter`; `result` is returned by `espeak_SetParameter`. -/
def Java_com_reecedunn_espeak_SpeechSynthesis_nativeSetParameter (h : speak_lib) (w : World)
    (parameter value : Int) (result : Int) : Bool × World :=
  let w1 := w.emit (.espeak_SetParameter parameter value 0)
  if result = h.EE_OK then (true, w1)
  else if result = h.EE_INTERNAL_ERROR then
    (false, w1.emit (.LOGE "espeak_SetParameter: internal error."))
  else if result = h.EE_BUFFER_FULL then
    (false, w1.emit (.LOGE "espeak_SetParameter: buffer full."))
  else if result = h.EE_NOT_FOUND then
    (false, w1.emit (.LOGE "espeak_SetParameter: not found."))
  else (false, w1)

/-- The entry point `nativeSynthesize`; `result` is returned by `espeak_Synth`, and `chunks`
lists the chunks the engine generates during that call. -/
def Java_com_reecedunn_espeak_SpeechSynthesis_nativeSynthesize (h : speak_lib)
    (short_bytes : Int → Int × Int) (w : World) (env object : Nat) (text : Option String)
    (isSsml : Bool) (chunks : List (List Int × Int)) (result : Int) :
    Option (Bool × World) := do
  let nat := getNativeData w object
  let (c_text, w1) := GetStringUTFChars w text
  let nd ← w1.heap nat
  let w2 := (w1.write nat { nd with env := some env }).emit (.store_env nat env)
  let w3 := { w2 with synthCallback := true }.emit .espeak_SetSynthCallback
  let size ← strlen c_text
  let w4 := w3.emit (.espeak_Synth c_text size 0 h.POS_CHARACTER 0
    (if isSsml then h.espeakCHARS_UTF8 ||| h.espeakSSML else h.espeakCHARS_UTF8) nat)
  let w5 ← espeak_Synth_callbacks short_bytes w4 nat chunks
  let w6 := w5.emit .espeak_Synchronize
  let w7 := ReleaseStringUTFChars w6 c_text
  if result = h.EE_OK then pure (true, w7)
  else if result = h.EE_INTERNAL_ERROR then
    pure (true, w7.emit (.LOGE "espeak_Synth: internal error."))
  else if result = h.EE_BUFFER_FULL then
    pure (true, w7.emit (.LOGE "espeak_Synth: buffer full."))
  else if result = h.EE_NOT_FOUND then
    pure (true, w7.emit (.LOGE "espeak_Synth: not found."))
  else pure (true, w7)

/-- The steps of a synthesis request that the engine takes part in: the calls to the engine,
and the store of the calling environment into the handle that the engine's callback reads. -/
def Effect.engine_facing : Effect → Bool
  | .espeak_Initialize _ _ _ _ => true
  | .espeak_ListVoices => true
  | .espeak_SetVoiceByName _ => true
  | .espeak_SetVoiceByProperties _ _ _ => true
  | .espeak_SetParameter _ _ _ => true
  | .espeak_SetSynthCallback => true
  | .espeak_Synth _ _ _ _ _ _ _ => true
  | .espeak_Synchronize => true
  | .store_env _ _ => true
  | _ => false

/-- A chunk the engine may hand to the callback: an end-of-stream chunk without samples, or a
buffer that holds at least `numSamples` samples whose byte count fits an `int`. -/
def chunk_ok (c : List Int × Int) : Prop :=
  c.2 < 1 ∨ (c.2 ≤ (c.1.length : Int) ∧ c.2 * 2 ≤ INT_MAX)

instance (c : List Int × Int) : Decidable (chunk_ok c) := by
  unfold chunk_ok
  infer_instance

/-! ## Concrete data used to instantiate the theorems -/

/-- The values the constants have in the engine's published header. -/
def espeak_header : speak_lib :=
  { EE_OK := 0
    EE_INTERNAL_ERROR := -1
    EE_BUFFER_FULL := 1
    EE_NOT_FOUND := 2
    espeakCHARS_UTF8 := 1
    espeakSSML := 16
    POS_CHARACTER := 1
    AUDIO_OUTPUT_SYNCHRONOUS := 2
    distinct := by decide }

/-- Little-endian bytes of a 16-bit sample, as signed bytes. -/
def le_bytes (s : Int) : Int × Int :=
  ((s % 256 + 128) % 256 - 128, (s / 256 % 256 + 128) % 256 - 128)

/-- A world in which nothing has been created yet. -/
def world0 : World :=
  { heap := fun _ => none
    brk := 0
    mNativeData := fun _ => 0
    weakGlobalRefs := []
    byteArrays := []
    synthCallback := false
    trace := [] }

/-- The world after `nativeCreate` on object 7 of `world0`, the engine reporting 22050 Hz. -/
def world1 : World :=
  match Java_com_reecedunn_espeak_SpeechSynthesis_nativeCreate espeak_header world0 7 none
    22050 with
  | some (_, w) => w
  | none => world0

/-- The handle of `world1` once a synthesis request has stored environment 0 in it. -/
def handle2 : native_data_t :=
  { env := some 0
    object := some 7
    sampleRate := 22050
    channelCount := 1
    audioFormat := 2
    bufferSizeInMillis := 1000 }

/-- The world `world1` with `handle2` as the handle of object 7. -/
def world2 : World :=
  world1.write 1 handle2

/-! ## Lemmas on the embedding -/

/-- Every sample contributes two bytes. -/
theorem as_jbytes_length (sb : Int → Int × Int) (b : List Int) :
    (as_jbytes sb b).length = 2 * b.length := by
  induction b with
  | nil => rfl
  | cons s t ih =>
    simp only [as_jbytes, List.flatMap_cons, List.length_append, List.length_cons,
      List.length_nil] at ih ⊢
    omega

/-- The first `2 * k` bytes of a sample buffer are the bytes of its first `k` samples. -/
theorem as_jbytes_take (sb : Int → Int × Int) (b : List Int) (k : Nat) :
    (as_jbytes sb b).take (2 * k) = as_jbytes sb (b.take k) := by
  induction b generalizing k with
  | nil => simp [as_jbytes]
  | cons s t ih =>
    cases k with
    | zero => simp [as_jbytes]
    | succ k =>
      have h2 : 2 * (k + 1) = (2 * k) + 1 + 1 := by ring
      have := ih k
      simp only [as_jbytes] at this
      simp [as_jbytes, h2, this]

/-- The trampoline on a chunk without samples. -/
theorem SynthCallback_abort (sb : Int → Int × Int) (w : World) (b : List Int) (n ud : Int)
    (nd : native_data_t) (e o : Nat) (hheap : w.heap ud = some nd) (henv : nd.env = some e)
    (hobj : nd.object = some o) (hn : n < 1) :
    SynthCallback sb w b n ud = some (SYNTH_ABORT, w.emit (.CallVoidMethod e o none)) := by
  simp [SynthCallback, hheap, henv, hobj, hn]

/-- The trampoline on a chunk of at least one sample. -/
theorem SynthCallback_continue (sb : Int → Int × Int) (w : World) (b : List Int) (n ud : Int)
    (nd : native_data_t) (e o : Nat) (hheap : w.heap ud = some nd) (henv : nd.env = some e)
    (hobj : nd.object = some o) (hn : 1 ≤ n) (hlen : n ≤ (b.length : Int))
    (hmax : n * 2 ≤ INT_MAX) :
    SynthCallback sb w b n ud = some (SYNTH_CONTINUE,
      { w with
        byteArrays := w.byteArrays ++ [as_jbytes sb (b.take n.toNat)]
        trace := w.trace ++ [.NewByteArray (n * 2),
          .SetByteArrayRegion w.byteArrays.length 0 (n * 2) (as_jbytes sb (b.take n.toNat)),
          .CallVoidMethod e o (some w.byteArrays.length)] }) := by
  obtain ⟨k, rfl⟩ := Int.eq_ofNat_of_zero_le (by omega : 0 ≤ n)
  have hk : ((k : Int) * 2).toNat = 2 * k := by omega
  have hnot : ¬ ((k : Int) < 1) := by omega
  have hmul : int_mul (k : Int) 2 = some ((k : Int) * 2) := by
    simp only [int_mul, INT_MAX] at hmax ⊢
    rw [if_pos]
    constructor <;> omega
  have hlen2 : ¬ (((as_jbytes sb b).length : Int) < (k : Int) * 2) := by
    rw [as_jbytes_length]; push_cast; omega
  have hneg : ¬ ((k : Int) * 2 < 0) := by omega
  simp [SynthCallback, hheap, henv, hobj, hnot, hmul, NewByteArray, SetByteArrayRegion,
    World.emit, hk, hlen2, as_jbytes_take, hneg]

/-- The callbacks made during `espeak_Synth` all return, leave the heap as it is, and add no
engine call to the trace. -/
theorem espeak_Synth_callbacks_ok (sb : Int → Int × Int) (ud : Int) (nd : native_data_t)
    (e o : Nat) (henv : nd.env = some e) (hobj : nd.object = some o)
    (chunks : List (List Int × Int)) :
    ∀ w : World, w.heap ud = some nd → (∀ c ∈ chunks, chunk_ok c) →
      ∃ w1 evs, espeak_Synth_callbacks sb w ud chunks = some w1 ∧ w1.heap = w.heap ∧
        w1.trace = w.trace ++ evs ∧ evs.filter Effect.engine_facing = [] := by
  induction chunks with
  | nil =>
    intro w _ _
    exact ⟨w, [], rfl, rfl, by simp, rfl⟩
  | cons c rest ih =>
    intro w hheap hok
    obtain ⟨b, n⟩ := c
    have hc : chunk_ok (b, n) := hok _ (List.mem_cons_self _ _)
    have hrest : ∀ c ∈ rest, chunk_ok c := fun c hc => hok c (List.mem_cons_of_mem _ hc)
    by_cases hcb : w.synthCallback = true
    · rcases hc with hlt | ⟨hlen, hmax⟩
      · refine ⟨w.emit (.CallVoidMethod e o none), [.CallVoidMethod e o none], ?_, rfl, rfl, rfl⟩
        simp [espeak_Synth_callbacks, hcb, SynthCallback_abort sb w b n ud nd e o hheap henv hobj hlt,
          SYNTH_ABORT, SYNTH_CONTINUE]
      · by_cases hlt : n < 1
        · refine ⟨w.emit (.CallVoidMethod e o none), [.CallVoidMethod e o none], ?_, rfl, rfl, rfl⟩
          simp [espeak_Synth_callbacks, hcb,
            SynthCallback_abort sb w b n ud nd e o hheap henv hobj hlt, SYNTH_ABORT, SYNTH_CONTINUE]
        · have hn : 1 ≤ n := by omega
          have hstep := SynthCallback_continue sb w b n ud nd e o hheap henv hobj hn hlen hmax
          obtain ⟨w1, evs, h1, h2, h3, h4⟩ := ih _ (show ({ w with
              byteArrays := w.byteArrays ++ [as_jbytes sb (b.take n.toNat)]
              trace := w.trace ++ [.NewByteArray (n * 2),
                .SetByteArrayRegion w.byteArrays.length 0 (n * 2) (as_jbytes sb (b.take n.toNat)),
                .CallVoidMethod e o (some w.byteArrays.length)] } : World).heap ud = some nd
              from hheap) hrest
          refine ⟨w1, [.NewByteArray (n * 2),
                .SetByteArrayRegion w.byteArrays.length 0 (n * 2) (as_jbytes sb (b.take n.toNat)),
                .CallVoidMethod e o (some w.byteArrays.length)] ++ evs, ?_, h2, ?_, ?_⟩
          · simp only [espeak_Synth_callbacks, hcb, hstep, if_true]
            rw [hcb] at h1
            exact h1
          · rw [h3]; simp
          · simp [List.filter_append, h4, Effect.engine_facing]
    · refine ⟨w, [], ?_, rfl, by simp, rfl⟩
      simp [espeak_Synth_callbacks, hcb]

/-- A run of `nativeSynthesize` on a non-null text and a live handle. -/
theorem nativeSynthesize_run (h : speak_lib) (sb : Int → Int × Int) (w : World)
    (env object : Nat) (text : String) (isSsml : Bool) (chunks : List (List Int × Int))
    (result : Int) (nd : native_data_t) (o : Nat)
    (hlive : w.heap (getNativeData w object) = some nd) (hobj : nd.object = some o)
    (hchunks : ∀ c ∈ chunks, chunk_ok c) :
    ∃ w1 evs, Java_com_reecedunn_espeak_SpeechSynthesis_nativeSynthesize h sb w env object
        (some text) isSsml chunks result = some (true, w1) ∧
      w1.heap (getNativeData w object) = some { nd with env := some env } ∧
      w1.trace = w.trace ++ evs ∧
      evs.filter Effect.engine_facing =
        [.store_env (getNativeData w object) env, .espeak_SetSynthCallback,
          .espeak_Synth (some text) text.utf8ByteSize 0 h.POS_CHARACTER 0
            (if isSsml then h.espeakCHARS_UTF8 ||| h.espeakSSML else h.espeakCHARS_UTF8)
            (getNativeData w object),
          .espeak_Synchronize] := by
  obtain ⟨w5, evs, h5, hheap5, htr5, hf5⟩ :=
    espeak_Synth_callbacks_ok sb (getNativeData w object) { nd with env := some env } env o rfl
      hobj chunks
      (({ ((w.emit (.GetStringUTFChars text)).write (getNativeData w object)
            { nd with env := some env }).emit (.store_env (getNativeData w object) env) with
          synthCallback := true }.emit .espeak_SetSynthCallback).emit
        (.espeak_Synth (some text) text.utf8ByteSize 0 h.POS_CHARACTER 0
          (if isSsml then h.espeakCHARS_UTF8 ||| h.espeakSSML else h.espeakCHARS_UTF8)
          (getNativeData w object)))
      (by simp [World.emit, World.write]) hchunks
  obtain ⟨pre, hpre⟩ : ∃ pre : List Effect, pre = [.GetStringUTFChars text,
      .store_env (getNativeData w object) env, .espeak_SetSynthCallback,
      .espeak_Synth (some text) text.utf8ByteSize 0 h.POS_CHARACTER 0
        (if isSsml then h.espeakCHARS_UTF8 ||| h.espeakSSML else h.espeakCHARS_UTF8)
        (getNativeData w object)] := ⟨_, rfl⟩
  have hh : w5.heap (getNativeData w object) = some { nd with env := some env } := by
    rw [hheap5]
    simp [World.emit, World.write]
  have hrun : ∀ logs : List Effect,
      w5.trace ++ [Effect.espeak_Synchronize, Effect.ReleaseStringUTFChars text] ++ logs
        = w.trace ++ (pre ++ evs ++ [Effect.espeak_Synchronize, Effect.ReleaseStringUTFChars text] ++ logs) := by
    intro logs
    rw [htr5, hpre]
    simp [World.emit, World.write]
  have hfilter : ∀ logs : List Effect, logs.filter Effect.engine_facing = [] →
      (pre ++ evs ++ [Effect.espeak_Synchronize, Effect.ReleaseStringUTFChars text] ++ logs).filter
        Effect.engine_facing =
        [.store_env (getNativeData w object) env, .espeak_SetSynthCallback,
          .espeak_Synth (some text) text.utf8ByteSize 0 h.POS_CHARACTER 0
            (if isSsml then h.espeakCHARS_UTF8 ||| h.espeakSSML else h.espeakCHARS_UTF8)
            (getNativeData w object),
          .espeak_Synchronize] := by
    intro logs hlogs
    rw [hpre]
    simp [List.filter_append, hf5, hlogs, Effect.engine_facing]
  simp only [Java_com_reecedunn_espeak_SpeechSynthesis_nativeSynthesize, GetStringUTFChars,
    Option.bind_eq_bind, Option.some_bind, strlen, bind, pure]
  have hl : (w.emit (.GetStringUTFChars text)).heap (getNativeData w object) = some nd := hlive
  rw [hl]
  simp only [Option.some_bind, Option.bind]
  rw [h5]
  simp only [ReleaseStringUTFChars]
  by_cases c1 : result = h.EE_OK
  · refine ⟨((w5.emit Effect.espeak_Synchronize).emit (Effect.ReleaseStringUTFChars text)), pre ++ evs ++ [Effect.espeak_Synchronize, Effect.ReleaseStringUTFChars text] ++ [],
      by rw [if_pos c1], hh, ?_, hfilter [] rfl⟩
    simpa [World.emit] using hrun []
  · by_cases c2 : result = h.EE_INTERNAL_ERROR
    · refine ⟨((w5.emit Effect.espeak_Synchronize).emit (Effect.ReleaseStringUTFChars text)).emit (Effect.LOGE "espeak_Synth: internal error."), _,
        by rw [if_neg c1, if_pos c2], hh, ?_, hfilter [Effect.LOGE "espeak_Synth: internal error."] rfl⟩
      simpa [World.emit] using hrun [Effect.LOGE "espeak_Synth: internal error."]
    · by_cases c3 : result = h.EE_BUFFER_FULL
      · refine ⟨((w5.emit Effect.espeak_Synchronize).emit (Effect.ReleaseStringUTFChars text)).emit (Effect.LOGE "espeak_Synth: buffer full."), _,
          by rw [if_neg c1, if_neg c2, if_pos c3], hh, ?_,
          hfilter [Effect.LOGE "espeak_Synth: buffer full."] rfl⟩
        simpa [World.emit] using hrun [Effect.LOGE "espeak_Synth: buffer full."]
      · by_cases c4 : result = h.EE_NOT_FOUND
        · refine ⟨((w5.emit Effect.espeak_Synchronize).emit (Effect.ReleaseStringUTFChars text)).emit (Effect.LOGE "espeak_Synth: not found."), _,
            by rw [if_neg c1, if_neg c2, if_neg c3, if_pos c4], hh, ?_,
            hfilter [Effect.LOGE "espeak_Synth: not found."] rfl⟩
          simpa [World.emit] using hrun [Effect.LOGE "espeak_Synth: not found."]
        · refine ⟨((w5.emit Effect.espeak_Synchronize).emit (Effect.ReleaseStringUTFChars text)), pre ++ evs ++ [Effect.espeak_Synchronize, Effect.ReleaseStringUTFChars text] ++ [],
            by rw [if_neg c1, if_neg c2, if_neg c3, if_neg c4], hh, ?_, hfilter [] rfl⟩
          simpa [World.emit] using hrun []

/-- The counting loop stops at the terminating null. -/
theorem count_loop_terminated (vs : List espeak_VOICE) (rest : List (Option espeak_VOICE)) :
    ∀ count : Nat, count_loop (vs.map some ++ none :: rest) count = some (count + vs.length) := by
  induction vs with
  | nil => intro count; simp [count_loop]
  | cons v vs ih =>
    intro count
    have hstep : count_loop ((v :: vs).map some ++ none :: rest) count
        = count_loop (vs.map some ++ none :: rest) (count + 1) := rfl
    rw [hstep, ih, List.length_cons]
    have : count + 1 + vs.length = count + (vs.length + 1) := by omega
    rw [this]

/-- The populating loop writes four fields per voice and stops at the terminating null. -/
theorem populate_loop_terminated (rest : List (Option espeak_VOICE)) (vs : List espeak_VOICE) :
    ∀ (done : List (Option String)), (∀ v ∈ vs, v.languages ≠ "") →
      populate_loop (vs.map some ++ none :: rest) done.length
          (done ++ List.replicate (4 * vs.length) none)
        = some (done ++ vs.flatMap (fun v => [some (v.languages.drop 1), some v.identifier,
            some (sprintf_d v.gender), some (sprintf_d v.age)])) := by
  induction vs with
  | nil => intro done _; simp [populate_loop]
  | cons v vs ih =>
    intro done hlang
    have hl : plus_one v.languages = some (v.languages.drop 1) := by
      simp [plus_one, hlang v (List.mem_cons_self _ _)]
    have hrep : List.replicate (4 * (v :: vs).length) (none : Option String)
        = none :: none :: none :: none :: List.replicate (4 * vs.length) none := by
      have : 4 * (v :: vs).length = 4 * vs.length + 1 + 1 + 1 + 1 := by
        simp only [List.length_cons]; ring
      rw [this]
      rfl
    have hnext := ih (done ++ [some (v.languages.drop 1), some v.identifier, some (sprintf_d v.gender),
      some (sprintf_d v.age)]) (fun u hu => hlang u (List.mem_cons_of_mem _ hu))
    simp only [List.length_append, List.length_cons, List.length_nil, List.append_assoc,
      List.cons_append, List.nil_append] at hnext
    simp only [List.map_cons, List.cons_append, populate_loop, hl, hrep, Option.bind_eq_bind,
      Option.some_bind, List.flatMap_cons, bind]
    simp only [List.set_append, lt_self_iff_false, if_false, Nat.sub_self, List.set_cons_zero,
      Nat.lt_irrefl, Nat.add_sub_cancel_left, List.set_cons_succ, add_lt_iff_neg_left,
      Nat.not_lt_zero, Option.bind]
    exact hnext

/-- Indexing a concatenation of blocks of four elements. -/
theorem flatMap_four_getElem? {α β : Type} (f : α → List β) (hf : ∀ a, (f a).length = 4)
    (vs : List α) : ∀ (i : Nat) (hi : i < vs.length) (j : Nat), j < 4 →
      (vs.flatMap f)[4 * i + j]? = (f vs[i])[j]? := by
  induction vs with
  | nil => intro i hi; simp at hi
  | cons v vs ih =>
    intro i hi j hj
    cases i with
    | zero =>
      simp only [List.flatMap_cons, Nat.mul_zero, Nat.zero_add, List.getElem_cons_zero]
      exact List.getElem?_append_left (by rw [hf]; exact hj)
    | succ i =>
      have hi2 : i < vs.length := by simpa using hi
      have hidx : 4 * (i + 1) + j = (f v).length + (4 * i + j) := by rw [hf]; ring
      simp only [List.flatMap_cons, List.getElem_cons_succ, hidx]
      rw [List.getElem?_append_right (by omega)]
      simpa using ih i hi2 j hj

/-- A run of `nativeCreate`: the handle it leaves at the fresh address. -/
theorem nativeCreate_run (h : speak_lib) (w : World) (object : Nat) (path : Option String)
    (r : Int) :
    ∃ w1, Java_com_reecedunn_espeak_SpeechSynthesis_nativeCreate h w object path r
        = some (decide (0 < r), w1) ∧
      getNativeData w1 object = (w.brk : Int) + 1 ∧
      w1.heap ((w.brk : Int) + 1)
        = some { native_data_t.ctor with object := some object, sampleRate := r } ∧
      w1.weakGlobalRefs = object :: w.weakGlobalRefs := by
  have hne : ((w.brk : Int) + 1 = 0) = False := by
    simp only [eq_iff_iff, iff_false]; omega
  cases path <;>
  simp [Java_com_reecedunn_espeak_SpeechSynthesis_nativeCreate, operator_new, hne,
    SetIntField, GetStringUTFChars, ReleaseStringUTFChars, World.emit, World.write,
    getNativeData]

/-- The entry point `nativeSetParameter` writes neither the heap nor any `mNativeData` field. -/
theorem nativeSetParameter_frame (h : speak_lib) (w : World) (parameter value result : Int) :
    (Java_com_reecedunn_espeak_SpeechSynthesis_nativeSetParameter h w parameter value result).2.heap
        = w.heap ∧
      (Java_com_reecedunn_espeak_SpeechSynthesis_nativeSetParameter h w parameter value
        result).2.mNativeData = w.mNativeData := by
  unfold Java_com_reecedunn_espeak_SpeechSynthesis_nativeSetParameter
  simp only []
  split_ifs <;> exact ⟨rfl, rfl⟩

/-- A sequence of `nativeSetParameter` calls writes neither the heap nor any `mNativeData`
field. -/
theorem nativeSetParameter_calls_frame (h : speak_lib) (calls : List (Int × Int × Int)) :
    ∀ w : World,
      (calls.foldl (fun s c =>
        (Java_com_reecedunn_espeak_SpeechSynthesis_nativeSetParameter h s c.1 c.2.1 c.2.2).2)
        w).heap = w.heap ∧
      (calls.foldl (fun s c =>
        (Java_com_reecedunn_espeak_SpeechSynthesis_nativeSetParameter h s c.1 c.2.1 c.2.2).2)
        w).mNativeData = w.mNativeData := by
  induction calls with
  | nil => intro w; exact ⟨rfl, rfl⟩
  | cons c rest ih =>
    intro w
    obtain ⟨h1, h2⟩ := ih
      (Java_com_reecedunn_espeak_SpeechSynthesis_nativeSetParameter h w c.1 c.2.1 c.2.2).2
    obtain ⟨h3, h4⟩ := nativeSetParameter_frame h w c.1 c.2.1 c.2.2
    simp only [List.foldl_cons]
    exact ⟨h1.trans h3, h2.trans h4⟩

/-- The three error codes differ from `EE_OK`. -/
theorem speak_lib_errors_ne_ok (h : speak_lib) :
    h.EE_INTERNAL_ERROR ≠ h.EE_OK ∧ h.EE_BUFFER_FULL ≠ h.EE_OK ∧ h.EE_NOT_FOUND ≠ h.EE_OK := by
  have hd := h.distinct
  simp only [List.nodup_cons, List.mem_cons, List.mem_singleton, not_or, List.not_mem_nil,
    not_false_eq_true, List.nodup_nil, and_true] at hd
  obtain ⟨⟨h1, h2, h3⟩, -⟩ := hd
  exact ⟨fun e => h1 e.symm, fun e => h2 e.symm, fun e => h3 e.symm⟩

/-- A run of `nativeDestroy` on a live handle. -/
theorem nativeDestroy_run (w : World) (object : Nat) (nd : native_data_t)
    (hlive : w.heap (getNativeData w object) = some nd) :
    Java_com_reecedunn_espeak_SpeechSynthesis_nativeDestroy w object
      = some (true, operator_delete
          ({ w with
            weakGlobalRefs := match nd.object with
              | some o => w.weakGlobalRefs.erase o
              | none => w.weakGlobalRefs }.emit (.DeleteWeakGlobalRef nd.object))
          (getNativeData w object)) := by
  simp only [Java_com_reecedunn_espeak_SpeechSynthesis_nativeDestroy, hlive,
    Option.bind_eq_bind, Option.some_bind, bind, pure, Option.bind]

/-! ## The claims -/

/-- C1: code evaluated where the claim fails. On a handle just created, with the header's
published values, `nativeSynthesize` returns true when `espeak_Synth` returns
`EE_INTERNAL_ERROR`, `EE_BUFFER_FULL` or `EE_NOT_FOUND`, where the claim asks for false. -/
theorem nativeSynthesize_error_codes_return_true :
    (Java_com_reecedunn_espeak_SpeechSynthesis_nativeSynthesize espeak_header le_bytes world1 0 7
        (some "hello") false [] espeak_header.EE_INTERNAL_ERROR).map Prod.fst = some true ∧
    (Java_com_reecedunn_espeak_SpeechSynthesis_nativeSynthesize espeak_header le_bytes world1 0 7
        (some "hello") false [] espeak_header.EE_BUFFER_FULL).map Prod.fst = some true ∧
    (Java_com_reecedunn_espeak_SpeechSynthesis_nativeSynthesize espeak_header le_bytes world1 0 7
        (some "hello") false [] espeak_header.EE_NOT_FOUND).map Prod.fst = some true := by
  decide

/-- C2: each of `nativeSetVoiceByName`, `nativeSetVoiceByProperties` and `nativeSetParameter`
returns true exactly when the engine call returns `EE_OK`, for every input and every result
code; in particular each returns false for `EE_INTERNAL_ERROR`, `EE_BUFFER_FULL` and
`EE_NOT_FOUND`, which the returned value does not tell apart. -/
theorem set_operations_return_ok_iff (h : speak_lib) (w : World) (name language : Option String)
    (gender age parameter value result : Int) :
    (Java_com_reecedunn_espeak_SpeechSynthesis_nativeSetVoiceByName h w name result).1
        = decide (result = h.EE_OK) ∧
    (Java_com_reecedunn_espeak_SpeechSynthesis_nativeSetVoiceByProperties h w language gender age
        result).1 = decide (result = h.EE_OK) ∧
    (Java_com_reecedunn_espeak_SpeechSynthesis_nativeSetParameter h w parameter value result).1
        = decide (result = h.EE_OK) ∧
    (Java_com_reecedunn_espeak_SpeechSynthesis_nativeSetVoiceByName h w name
        h.EE_INTERNAL_ERROR).1 = false ∧
    (Java_com_reecedunn_espeak_SpeechSynthesis_nativeSetVoiceByName h w name
        h.EE_BUFFER_FULL).1 = false ∧
    (Java_com_reecedunn_espeak_SpeechSynthesis_nativeSetVoiceByName h w name
        h.EE_NOT_FOUND).1 = false ∧
    (Java_com_reecedunn_espeak_SpeechSynthesis_nativeSetVoiceByProperties h w language gender age
        h.EE_INTERNAL_ERROR).1 = false ∧
    (Java_com_reecedunn_espeak_SpeechSynthesis_nativeSetVoiceByProperties h w language gender age
        h.EE_BUFFER_FULL).1 = false ∧
    (Java_com_reecedunn_espeak_SpeechSynthesis_nativeSetVoiceByProperties h w language gender age
        h.EE_NOT_FOUND).1 = false ∧
    (Java_com_reecedunn_espeak_SpeechSynthesis_nativeSetParameter h w parameter value
        h.EE_INTERNAL_ERROR).1 = false ∧
    (Java_com_reecedunn_espeak_SpeechSynthesis_nativeSetParameter h w parameter value
        h.EE_BUFFER_FULL).1 = false ∧
    (Java_com_reecedunn_espeak_SpeechSynthesis_nativeSetParameter h w parameter value
        h.EE_NOT_FOUND).1 = false := by
  obtain ⟨h1, h2, h3⟩ := speak_lib_errors_ne_ok h
  have key1 : ∀ res : Int,
      (Java_com_reecedunn_espeak_SpeechSynthesis_nativeSetVoiceByName h w name res).1
        = decide (res = h.EE_OK) := by
    intro res
    unfold Java_com_reecedunn_espeak_SpeechSynthesis_nativeSetVoiceByName
    simp only []
    split_ifs <;> simp [*]
  have key2 : ∀ res : Int,
      (Java_com_reecedunn_espeak_SpeechSynthesis_nativeSetVoiceByProperties h w language gender
        age res).1 = decide (res = h.EE_OK) := by
    intro res
    unfold Java_com_reecedunn_espeak_SpeechSynthesis_nativeSetVoiceByProperties
    simp only []
    split_ifs <;> simp [*]
  have key3 : ∀ res : Int,
      (Java_com_reecedunn_espeak_SpeechSynthesis_nativeSetParameter h w parameter value res).1
        = decide (res = h.EE_OK) := by
    intro res
    unfold Java_com_reecedunn_espeak_SpeechSynthesis_nativeSetParameter
    simp only []
    split_ifs <;> simp [*]
  refine ⟨key1 _, key2 _, key3 _, ?_, ?_, ?_, ?_, ?_, ?_, ?_, ?_, ?_⟩ <;>
    simp [key1, key2, key3, h1, h2, h3]

/-- C3: for every optional resource path and every sample rate `r` reported by
`espeak_Initialize`, `nativeCreate` returns true exactly when `r > 0` (false when `r` is zero
or negative), and in both cases the handle attached to the object records `r` as its sample
rate. -/
theorem nativeCreate_true_iff_positive_rate (h : speak_lib) (w : World) (object : Nat)
    (path : Option String) (r : Int) :
    ∃ w1 nd, Java_com_reecedunn_espeak_SpeechSynthesis_nativeCreate h w object path r
        = some (decide (0 < r), w1) ∧
      w1.heap (getNativeData w1 object) = some nd ∧ nd.sampleRate = r := by
  obtain ⟨w1, h1, h2, h3, -⟩ := nativeCreate_run h w object path r
  exact ⟨w1, _, h1, by rw [h2, h3], rfl⟩

/-- C4: on a live handle holding the calling environment `e` and the object reference `o`,
`SynthCallback` with fewer than one sample makes exactly one call, `CallVoidMethod` with a null
argument, and returns `SYNTH_ABORT` (1); with `n ≥ 1` samples, the buffer holding at least `n`
samples and `2 * n` fitting an `int`, it creates one new byte array, fills it and makes exactly
one `CallVoidMethod` call with it, the array has length `2 * n` and holds the bytes of the
first `n` samples in order, and the function returns `SYNTH_CONTINUE` (0). -/
theorem SynthCallback_delivers_chunk (sb : Int → Int × Int) (w : World) (b : List Int)
    (n ud : Int) (nd : native_data_t) (e o : Nat) (hheap : w.heap ud = some nd)
    (henv : nd.env = some e) (hobj : nd.object = some o) :
    (n < 1 → SynthCallback sb w b n ud = some (1, w.emit (.CallVoidMethod e o none))) ∧
    (1 ≤ n → n ≤ (b.length : Int) → n * 2 ≤ INT_MAX →
      ∃ w1 bytes, SynthCallback sb w b n ud = some (0, w1) ∧
        w1.trace = w.trace ++ [.NewByteArray (2 * n),
          .SetByteArrayRegion w.byteArrays.length 0 (2 * n) bytes,
          .CallVoidMethod e o (some w.byteArrays.length)] ∧
        w.byteArrays[w.byteArrays.length]? = none ∧
        w1.byteArrays[w.byteArrays.length]? = some bytes ∧
        (bytes.length : Int) = 2 * n ∧
        bytes = (b.take n.toNat).flatMap (fun s => [(sb s).1, (sb s).2])) := by
  refine ⟨fun hn => SynthCallback_abort sb w b n ud nd e o hheap henv hobj hn, ?_⟩
  intro hn hlen hmax
  refine ⟨_, as_jbytes sb (b.take n.toNat),
    SynthCallback_continue sb w b n ud nd e o hheap henv hobj hn hlen hmax, ?_, ?_, ?_, ?_, rfl⟩
  · simp [mul_comm]
  · simp
  · simp
  · rw [as_jbytes_length, List.length_take]
    have : min n.toNat b.length = n.toNat := by omega
    rw [this]
    push_cast
    omega

/-- Witness of C4: an end-of-stream chunk and a chunk of two samples on `world2`. -/
theorem SynthCallback_delivers_chunk_witness :
    SynthCallback le_bytes world2 [] 0 1 = some (1, world2.emit (.CallVoidMethod 0 7 none)) ∧
    ∃ w1 bytes, SynthCallback le_bytes world2 [258, -2, 5] 2 1 = some (0, w1) ∧
      w1.trace = world2.trace ++ [.NewByteArray (2 * 2),
        .SetByteArrayRegion world2.byteArrays.length 0 (2 * 2) bytes,
        .CallVoidMethod 0 7 (some world2.byteArrays.length)] ∧
      world2.byteArrays[world2.byteArrays.length]? = none ∧
      w1.byteArrays[world2.byteArrays.length]? = some bytes ∧
      (bytes.length : Int) = 2 * 2 ∧
      bytes = ([258, -2, 5].take (2 : Int).toNat).flatMap
        (fun s => [(le_bytes s).1, (le_bytes s).2]) :=
  ⟨(SynthCallback_delivers_chunk le_bytes world2 [] 0 1 handle2 0 7 (by decide) rfl rfl).1
      (by decide),
    (SynthCallback_delivers_chunk le_bytes world2 [258, -2, 5] 2 1 handle2 0 7 (by decide) rfl
      rfl).2 (by decide) (by decide) (by decide)⟩

/-- C5: for an engine voice list of `n` records followed by the terminating null (and by
anything after it), every record with a non-empty `languages` string and `4 * n` fitting an
`int`, `nativeGetAvailableVoices` returns an array of length `4 * n` whose elements `4i`,
`4i+1`, `4i+2`, `4i+3` are the `i`-th voice's `languages` string without its first byte, its
identifier, and the decimal renderings of its gender and age, in the engine's order; the
array is the same whatever follows the terminating null. -/
theorem nativeGetAvailableVoices_four_fields_per_voice (w : World) (vs : List espeak_VOICE)
    (hlang : ∀ v ∈ vs, v.languages ≠ "") (hsize : 4 * (vs.length : Int) ≤ INT_MAX) :
    ∃ arr : List (Option String),
      (∀ rest : List (Option espeak_VOICE),
        Java_com_reecedunn_espeak_SpeechSynthesis_nativeGetAvailableVoices w
          (vs.map some ++ none :: rest) = some (arr, w.emit .espeak_ListVoices)) ∧
      arr.length = 4 * vs.length ∧
      ∀ (i : Nat) (hi : i < vs.length),
        arr[4 * i]? = some (some (vs[i].languages.drop 1)) ∧
        arr[4 * i + 1]? = some (some vs[i].identifier) ∧
        arr[4 * i + 2]? = some (some (Nat.repr vs[i].gender)) ∧
        arr[4 * i + 3]? = some (some (Nat.repr vs[i].age)) := by
  refine ⟨vs.flatMap (fun v => [some (v.languages.drop 1), some v.identifier,
    some (sprintf_d v.gender), some (sprintf_d v.age)]), ?_, ?_, ?_⟩
  · intro rest
    have hmul : int_mul (vs.length : Int) 4 = some ((vs.length : Int) * 4) := by
      simp only [int_mul, INT_MAX] at hsize ⊢
      rw [if_pos]
      constructor <;> omega
    have hnat : ((vs.length : Int) * 4).toNat = 4 * vs.length := by omega
    have hpop := populate_loop_terminated rest vs [] hlang
    simp only [List.length_nil, List.nil_append] at hpop
    simp [Java_com_reecedunn_espeak_SpeechSynthesis_nativeGetAvailableVoices,
      count_loop_terminated, hmul, hnat, hpop]
  · induction vs with
    | nil => rfl
    | cons v vs ih =>
      simp only [List.flatMap_cons, List.length_append, List.length_cons, List.length_nil]
      have := ih (fun u hu => hlang u (List.mem_cons_of_mem _ hu))
        (by simp only [List.length_cons] at hsize; push_cast at hsize; omega)
      omega
  · intro i hi
    have key := flatMap_four_getElem? (fun v : espeak_VOICE => [some (v.languages.drop 1),
      some v.identifier, some (sprintf_d v.gender), some (sprintf_d v.age)]) (fun _ => rfl) vs i hi
    exact ⟨by simpa using key 0 (by omega), by simpa using key 1 (by omega),
      by simpa using key 2 (by omega), by simpa using key 3 (by omega)⟩

/-- Witness of C5: a list of two voices, with an entry after the terminating null. -/
theorem nativeGetAvailableVoices_four_fields_per_voice_witness :
    ∃ arr : List (Option String),
      (∀ rest : List (Option espeak_VOICE),
        Java_com_reecedunn_espeak_SpeechSynthesis_nativeGetAvailableVoices world0
          ([espeak_VOICE.mk "\x05en" "default" 1 0, espeak_VOICE.mk "\x05fr" "fr" 2 30].map some
            ++ none :: rest) = some (arr, world0.emit .espeak_ListVoices)) ∧
      arr.length = 4 * 2 ∧ arr[4 * 1 + 2]? = some (some "2") := by
  obtain ⟨arr, h1, h2, h3⟩ := nativeGetAvailableVoices_four_fields_per_voice world0
    [espeak_VOICE.mk "\x05en" "default" 1 0, espeak_VOICE.mk "\x05fr" "fr" 2 30]
    (by decide) (by decide)
  have h4 := (h3 1 (by decide)).2.2.1
  simp only [List.getElem_cons_succ, List.getElem_cons_zero] at h4
  rw [show Nat.repr 2 = "2" from by decide] at h4
  exact ⟨arr, h1, h2, h4⟩

/-- C6: after `nativeCreate`, and after any sequence of `nativeSetParameter` calls that follows
it (the empty sequence included), `nativeGetSampleRate`, `nativeGetChannelCount`,
`nativeGetAudioFormat` and `nativeGetBufferSizeInMillis` return the sample rate reported by the
engine at creation, 1 (mono), 2 (16-bit PCM) and 1000 ms, and each query leaves the world, and
so the handle, unchanged. -/
theorem queries_return_creation_values (h : speak_lib) (w : World) (object : Nat)
    (path : Option String) (r : Int) :
    ∃ ok w1, Java_com_reecedunn_espeak_SpeechSynthesis_nativeCreate h w object path r
        = some (ok, w1) ∧
      ∀ calls : List (Int × Int × Int),
        Java_com_reecedunn_espeak_SpeechSynthesis_nativeGetSampleRate
          (calls.foldl (fun s c =>
            (Java_com_reecedunn_espeak_SpeechSynthesis_nativeSetParameter h s c.1 c.2.1 c.2.2).2)
            w1) object
          = some (r, calls.foldl (fun s c =>
            (Java_com_reecedunn_espeak_SpeechSynthesis_nativeSetParameter h s c.1 c.2.1 c.2.2).2)
            w1) ∧
        Java_com_reecedunn_espeak_SpeechSynthesis_nativeGetChannelCount
          (calls.foldl (fun s c =>
            (Java_com_reecedunn_espeak_SpeechSynthesis_nativeSetParameter h s c.1 c.2.1 c.2.2).2)
            w1) object
          = some (1, calls.foldl (fun s c =>
            (Java_com_reecedunn_espeak_SpeechSynthesis_nativeSetParameter h s c.1 c.2.1 c.2.2).2)
            w1) ∧
        Java_com_reecedunn_espeak_SpeechSynthesis_nativeGetAudioFormat
          (calls.foldl (fun s c =>
            (Java_com_reecedunn_espeak_SpeechSynthesis_nativeSetParameter h s c.1 c.2.1 c.2.2).2)
            w1) object
          = some (2, calls.foldl (fun s c =>
            (Java_com_reecedunn_espeak_SpeechSynthesis_nativeSetParameter h s c.1 c.2.1 c.2.2).2)
            w1) ∧
        Java_com_reecedunn_espeak_SpeechSynthesis_nativeGetBufferSizeInMillis
          (calls.foldl (fun s c =>
            (Java_com_reecedunn_espeak_SpeechSynthesis_nativeSetParameter h s c.1 c.2.1 c.2.2).2)
            w1) object
          = some (1000, calls.foldl (fun s c =>
            (Java_com_reecedunn_espeak_SpeechSynthesis_nativeSetParameter h s c.1 c.2.1 c.2.2).2)
            w1) := by
  obtain ⟨w1, h1, h2, h3, -⟩ := nativeCreate_run h w object path r
  refine ⟨_, w1, h1, ?_⟩
  intro calls
  obtain ⟨f1, f2⟩ := nativeSetParameter_calls_frame h calls w1
  have hnd : (calls.foldl (fun s c =>
      (Java_com_reecedunn_espeak_SpeechSynthesis_nativeSetParameter h s c.1 c.2.1 c.2.2).2)
      w1).heap (getNativeData (calls.foldl (fun s c =>
      (Java_com_reecedunn_espeak_SpeechSynthesis_nativeSetParameter h s c.1 c.2.1 c.2.2).2)
      w1) object) = some { native_data_t.ctor with object := some object, sampleRate := r } := by
    rw [f1]
    unfold getNativeData at h2 ⊢
    rw [f2, h2, h3]
  simp only [Java_com_reecedunn_espeak_SpeechSynthesis_nativeGetSampleRate,
    Java_com_reecedunn_espeak_SpeechSynthesis_nativeGetChannelCount,
    Java_com_reecedunn_espeak_SpeechSynthesis_nativeGetAudioFormat,
    Java_com_reecedunn_espeak_SpeechSynthesis_nativeGetBufferSizeInMillis, hnd,
    Option.bind_eq_bind, Option.some_bind, bind, pure, Option.bind]
  simp [native_data_t.ctor, DEFAULT_CHANNEL_COUNT, CHANNEL_COUNT_MONO, DEFAULT_AUDIO_FORMAT,
    ENCODING_PCM_16BIT, DEFAULT_BUFFER_SIZE]

/-- C7, counterexample: after `nativeCreate` and `nativeDestroy` on object 7 of `world0` (both
return true), the `mNativeData` field of the object still holds 1, the address of the handle
that was live before the destroy and is freed after it. -/
theorem destroy_leaves_mNativeData_dangling :
    ∃ w1 w2, Java_com_reecedunn_espeak_SpeechSynthesis_nativeCreate espeak_header world0 7 none
        22050 = some (true, w1) ∧
      Java_com_reecedunn_espeak_SpeechSynthesis_nativeDestroy w1 7 = some (true, w2) ∧
      getNativeData w1 7 = 1 ∧ w1.heap 1 ≠ none ∧
      getNativeData w2 7 = 1 ∧ w2.heap 1 = none := by
  refine ⟨_, _, rfl, rfl, ?_, ?_, ?_, ?_⟩ <;> decide

/-- C7, as the code has it: whenever `espeak_Initialize` reports a positive sample rate,
`nativeCreate` followed by `nativeDestroy` on the same object returns true twice, the handle
created is live before the destroy and freed after it, and the weak global references are
those there were before the create; `nativeDestroy` does not write the `mNativeData` field,
which still holds the (non-null) address of the freed handle. -/
theorem create_then_destroy_frees_handle (h : speak_lib) (w : World) (object : Nat)
    (path : Option String) (r : Int) (hr : 0 < r) :
    ∃ w1 w2, Java_com_reecedunn_espeak_SpeechSynthesis_nativeCreate h w object path r
        = some (true, w1) ∧
      Java_com_reecedunn_espeak_SpeechSynthesis_nativeDestroy w1 object = some (true, w2) ∧
      w1.heap (getNativeData w1 object) ≠ none ∧
      w2.heap (getNativeData w1 object) = none ∧
      w2.weakGlobalRefs = w.weakGlobalRefs ∧
      getNativeData w2 object = getNativeData w1 object ∧
      getNativeData w1 object ≠ 0 := by
  obtain ⟨w1, h1, h2, h3, h4⟩ := nativeCreate_run h w object path r
  have hr2 : decide (0 < r) = true := by simpa using hr
  rw [hr2] at h1
  have h3b : w1.heap (getNativeData w1 object)
      = some { native_data_t.ctor with object := some object, sampleRate := r } := by
    rw [h2, h3]
  refine ⟨w1, _, h1, nativeDestroy_run w1 object _ h3b, ?_, ?_, ?_, ?_, ?_⟩
  · rw [h3b]; simp
  · simp [operator_delete, World.emit, h2]
  · simp [operator_delete, World.emit, h4]
  · rfl
  · rw [h2]; omega

/-- Witness of C7 as the code has it: object 7 of `world0`, no path, 22050 Hz. -/
theorem create_then_destroy_frees_handle_witness :
    (0 : Int) < 22050 ∧
    ∃ w1 w2, Java_com_reecedunn_espeak_SpeechSynthesis_nativeCreate espeak_header world0 7 none
        22050 = some (true, w1) ∧
      Java_com_reecedunn_espeak_SpeechSynthesis_nativeDestroy w1 7 = some (true, w2) ∧
      w1.heap (getNativeData w1 7) ≠ none ∧
      w2.heap (getNativeData w1 7) = none ∧
      w2.weakGlobalRefs = world0.weakGlobalRefs ∧
      getNativeData w2 7 = getNativeData w1 7 ∧
      getNativeData w1 7 ≠ 0 :=
  ⟨by decide, create_then_destroy_frees_handle espeak_header world0 7 none 22050 (by decide)⟩

/-- C8: for every non-null text and markup flag, on a live handle and whatever chunks the engine
hands to the callback meanwhile, the steps of `nativeSynthesize` that involve the engine are,
in this order and each exactly once: the store of the calling environment in the handle,
`espeak_SetSynthCallback`, `espeak_Synth` with the text, its byte length, position 0,
`POS_CHARACTER`, end position 0, the flags `espeakCHARS_UTF8 | espeakSSML` when the markup flag
is set and `espeakCHARS_UTF8` otherwise, and the handle as user data, and
`espeak_Synchronize`; the call returns, and the handle then holds the calling environment. -/
theorem nativeSynthesize_engine_steps_in_order (h : speak_lib) (sb : Int → Int × Int)
    (w : World) (env object : Nat) (text : String) (isSsml : Bool)
    (chunks : List (List Int × Int)) (result : Int) (nd : native_data_t) (o : Nat)
    (hlive : w.heap (getNativeData w object) = some nd) (hobj : nd.object = some o)
    (hchunks : ∀ c ∈ chunks, chunk_ok c) :
    ∃ ret w1 evs, Java_com_reecedunn_espeak_SpeechSynthesis_nativeSynthesize h sb w env object
        (some text) isSsml chunks result = some (ret, w1) ∧
      w1.trace = w.trace ++ evs ∧
      evs.filter Effect.engine_facing =
        [.store_env (getNativeData w object) env, .espeak_SetSynthCallback,
          .espeak_Synth (some text) text.utf8ByteSize 0 h.POS_CHARACTER 0
            (if isSsml then h.espeakCHARS_UTF8 ||| h.espeakSSML else h.espeakCHARS_UTF8)
            (getNativeData w object),
          .espeak_Synchronize] ∧
      w1.heap (getNativeData w object) = some { nd with env := some env } := by
  obtain ⟨w1, evs, h1, h2, h3, h4⟩ :=
    nativeSynthesize_run h sb w env object text isSsml chunks result nd o hlive hobj hchunks
  exact ⟨true, w1, evs, h1, h3, h4, h2⟩

/-- Witness of C8: a marked-up text on `world1`, the engine generating a chunk of two samples
and then an end-of-stream chunk. -/
theorem nativeSynthesize_engine_steps_in_order_witness :
    ∃ ret w1 evs, Java_com_reecedunn_espeak_SpeechSynthesis_nativeSynthesize espeak_header
        le_bytes world1 3 7 (some "<speak>hi</speak>") true [([258, -2], 2), ([], 0)] 0
        = some (ret, w1) ∧
      w1.trace = world1.trace ++ evs ∧
      evs.filter Effect.engine_facing =
        [.store_env (getNativeData world1 7) 3, .espeak_SetSynthCallback,
          .espeak_Synth (some "<speak>hi</speak>") "<speak>hi</speak>".utf8ByteSize 0
            espeak_header.POS_CHARACTER 0
            (if true then espeak_header.espeakCHARS_UTF8 ||| espeak_header.espeakSSML
              else espeak_header.espeakCHARS_UTF8)
            (getNativeData world1 7),
          .espeak_Synchronize] ∧
      w1.heap (getNativeData world1 7)
        = some { ({ native_data_t.ctor with object := some 7, sampleRate := 22050 } :
            native_data_t) with env := some 3 } :=
  nativeSynthesize_engine_steps_in_order espeak_header le_bytes world1 3 7 "<speak>hi</speak>"
    true [([258, -2], 2), ([], 0)] 0
    { native_data_t.ctor with object := some 7, sampleRate := 22050 } 7 (by decide) rfl
    (by decide)

/-- C9: for every non-null text and every result code returned by `espeak_Synth` (`EE_OK`, an
error code or any other value), on a live handle and whatever chunks the engine hands to the
callback meanwhile, `nativeSynthesize` returns, and returns true. -/
theorem nativeSynthesize_returns_true (h : speak_lib) (sb : Int → Int × Int) (w : World)
    (env object : Nat) (text : String) (isSsml : Bool) (chunks : List (List Int × Int))
    (result : Int) (nd : native_data_t) (o : Nat)
    (hlive : w.heap (getNativeData w object) = some nd) (hobj : nd.object = some o)
    (hchunks : ∀ c ∈ chunks, chunk_ok c) :
    ∃ w1, Java_com_reecedunn_espeak_SpeechSynthesis_nativeSynthesize h sb w env object
        (some text) isSsml chunks result = some (true, w1) := by
  obtain ⟨w1, -, h1, -⟩ :=
    nativeSynthesize_run h sb w env object text isSsml chunks result nd o hlive hobj hchunks
  exact ⟨w1, h1⟩

/-- Witness of C9: on `world1`, the engine returning `EE_NOT_FOUND` after one chunk. -/
theorem nativeSynthesize_returns_true_witness :
    ∃ w1, Java_com_reecedunn_espeak_SpeechSynthesis_nativeSynthesize espeak_header le_bytes
        world1 3 7 (some "hello") false [([1, 2, 3], 3)] espeak_header.EE_NOT_FOUND
        = some (true, w1) :=
  nativeSynthesize_returns_true espeak_header le_bytes world1 3 7 "hello" false [([1, 2, 3], 3)]
    espeak_header.EE_NOT_FOUND { native_data_t.ctor with object := some 7, sampleRate := 22050 }
    7 (by decide) rfl (by decide)

/-- C10: code evaluated where the claim fails. With a null text `nativeSynthesize` has no
defined result, in any world and for any engine behaviour: `c_text` is null and the argument
`strlen(c_text)` of `espeak_Synth` is evaluated without the null guard that the acquisition
and the release of the text have. -/
theorem nativeSynthesize_null_text_undefined (h : speak_lib) (sb : Int → Int × Int) (w : World)
    (env object : Nat) (isSsml : Bool) (chunks : List (List Int × Int)) (result : Int) :
    Java_com_reecedunn_espeak_SpeechSynthesis_nativeSynthesize h sb w env object none isSsml
      chunks result = none := by
  simp only [Java_com_reecedunn_espeak_SpeechSynthesis_nativeSynthesize, GetStringUTFChars,
    strlen, Option.bind_eq_bind, bind, pure]
  cases w.heap (getNativeData w object) <;> rfl

end eSpeakService
